import Mathlib

/-!
# Quadcopter firmware: IMU reader and PWM pin listener

A shallow embedding of `src/sensing/imu/IMUReader.cpp` and of the data model
declared in `src/command/PWMPinListener.hpp`.

Conventions of the embedding.

* C++ `float` / `double` values are idealised as exact rationals (`ℚ`); the
  macro `M_PI` of `<math.h>` is taken as a parameter of the angle accessors.
* Unsigned machine integers are `Nat`, signed ones are `Int`; a reduction
  modulo `2 ^ w` is written out wherever the source can overflow.
* The third-party `MPU6050` class is not part of the repository.  Its methods
  are taken as a record of functions over an abstract device state `M`
  (the heap object behind `mpu_`).  A method that writes through an output
  pointer receives the old contents and returns the new contents.
* `Wire`, `Serial`, `delay`, `pinMode` and `enableInterrupt` act on the board
  only and touch no variable of the program; they are left out.
* The file-scope flag `dmp_data_ready` is shared between the interrupt
  routine and `Update`, so it lives next to the reader in `State`.
* A method call and a run of the interrupt routine are each one atomic step;
  an interrupt arriving in the middle of a method is not modelled.
-/

namespace sensing.imu

/-- Sensitivity of the gyroscope at the full-scale range of 2000 degrees per second. -/
def GYRO_SENSITIVITY_SCALE_FACTOR : ℚ := 164 / 10

/-- Sensitivity of the accelerometer at the full-scale range of 2 g. -/
def ACCEL_SENSITIVITY_SCALE_FACTOR : ℚ := 16384

/-- Bus clock requested in `Begin`. -/
def COMMUNICATION_FREQUENCY : Nat := 400000

/-- Library type `Quaternion` (helper_3dmath.h). -/
structure Quaternion where
  w : ℚ
  x : ℚ
  y : ℚ
  z : ℚ
deriving DecidableEq

/-- Library type `VectorFloat` (helper_3dmath.h). -/
structure VectorFloat where
  x : ℚ
  y : ℚ
  z : ℚ
deriving DecidableEq

/-- The methods of the library class `MPU6050` that `IMUReader` calls, over an
abstract device state `M`.  Status bytes are `uint8_t`, raw readings `int16_t`.
The field `mpuInitialize` stands for the method the source calls as
`mpu_->initialize()`; `testConnection` only feeds a message on `Serial`. -/
structure MPU6050 (M : Type) where
  mpuInitialize : M → M
  dmpInitialize : M → Nat × M
  setDMPEnabled : Bool → M → M
  getIntStatus : M → Nat × M
  dmpGetFIFOPacketSize : M → Nat
  CalibrateAccel : Nat → M → M
  CalibrateGyro : Nat → M → M
  dmpGetCurrentFIFOPacket : M → List Nat → Nat × List Nat × M
  dmpGetQuaternion : Quaternion → List Nat → Quaternion
  dmpGetGravity : VectorFloat → Quaternion → VectorFloat
  dmpGetYawPitchRoll : (Fin 3 → ℚ) → Quaternion → VectorFloat → (Fin 3 → ℚ)
  getAccelerationX : M → Int
  getAccelerationY : M → Int
  getAccelerationZ : M → Int
  getRotationX : M → Int
  getRotationY : M → Int
  getRotationZ : M → Int
  getTemperature : M → Int

/-- Data members of `sensing::imu::IMUReader`. -/
structure IMUReader (M : Type) where
  mpu_ : M
  kInterruptPin_ : Nat
  dmp_ready_ : Bool
  is_calibrated_ : Bool
  device_status_ : Nat
  mpu_interrupt_status_ : Nat
  packet_size_ : Nat
  fifo_count_ : Nat
  fifo_buffer_ : List Nat
  quaternion_ : Quaternion
  gravity_ : VectorFloat
  ypr_ : Fin 3 → ℚ
  axes_invert_ : Fin 3 → Bool

/-- The reader together with the file-scope flag `dmp_data_ready`. -/
structure State (M : Type) where
  dmp_data_ready : Bool
  imu : IMUReader M

variable {M : Type}

/-- Interrupt routine `SetDMPDataReady`. -/
def SetDMPDataReady (s : State M) : State M :=
  { s with dmp_data_ready := true }

/-- Constructor `IMUReader(interrupt_pin)`.  `mem` is the storage the object is
built in (members outside the initialiser list keep its contents) and `mpu`
is the device object made by `new MPU6050()`. -/
def IMUReader.new1 (mem : IMUReader M) (mpu : M) (interrupt_pin : Nat) : IMUReader M :=
  { mem with
    mpu_ := mpu
    kInterruptPin_ := interrupt_pin
    dmp_ready_ := false
    is_calibrated_ := false
    packet_size_ := 0
    fifo_count_ := 0
    axes_invert_ :=
      ([0, 1, 2] : List (Fin 3)).foldl (fun a i => Function.update a i false)
        mem.axes_invert_ }

/-- Constructor `IMUReader(interrupt_pin, x_invert, y_invert, z_invert)`. -/
def IMUReader.new4 (mem : IMUReader M) (mpu : M) (interrupt_pin : Nat)
    (x_invert y_invert z_invert : Bool) : IMUReader M :=
  { mem with
    mpu_ := mpu
    kInterruptPin_ := interrupt_pin
    dmp_ready_ := false
    is_calibrated_ := false
    packet_size_ := 0
    fifo_count_ := 0
    axes_invert_ :=
      Function.update
        (Function.update (Function.update mem.axes_invert_ 0 x_invert) 1 y_invert)
        2 z_invert }

/-- Method `IMUReader::Begin`. -/
def Begin (drv : MPU6050 M) (r : IMUReader M) : IMUReader M :=
  let m1 := drv.mpuInitialize r.mpu_
  let init := drv.dmpInitialize m1
  if init.1 = 0 then
    let m2 := drv.setDMPEnabled true init.2
    let ist := drv.getIntStatus m2
    { r with
      mpu_ := ist.2
      device_status_ := init.1
      dmp_ready_ := true
      mpu_interrupt_status_ := ist.1
      packet_size_ := drv.dmpGetFIFOPacketSize ist.2 }
  else
    { r with
      mpu_ := init.2
      device_status_ := init.1
      dmp_ready_ := false }

/-- Method `IMUReader::Calibrate`: the returned flag and the reader afterwards. -/
def Calibrate (drv : MPU6050 M) (r : IMUReader M) : Bool × IMUReader M :=
  if !r.dmp_ready_ then
    (false, r)
  else
    let m1 := drv.CalibrateAccel 6 r.mpu_
    let m2 := drv.CalibrateGyro 6 m1
    let r1 : IMUReader M := { r with mpu_ := m2, is_calibrated_ := true }
    (r1.is_calibrated_, r1)

/-- Method `IMUReader::IsCalibrated`. -/
def IsCalibrated (r : IMUReader M) : Bool :=
  r.is_calibrated_

/-- Method `IMUReader::Update`. -/
def Update (drv : MPU6050 M) (s : State M) : State M :=
  if !s.imu.dmp_ready_ then
    s
  else if !s.dmp_data_ready then
    s
  else
    let fetch := drv.dmpGetCurrentFIFOPacket s.imu.mpu_ s.imu.fifo_buffer_
    if fetch.1 ≠ 0 then
      let q := drv.dmpGetQuaternion s.imu.quaternion_ fetch.2.1
      let g := drv.dmpGetGravity s.imu.gravity_ q
      let ypr := drv.dmpGetYawPitchRoll s.imu.ypr_ q g
      { dmp_data_ready := false
        imu := { s.imu with
          mpu_ := fetch.2.2
          fifo_buffer_ := fetch.2.1
          quaternion_ := q
          gravity_ := g
          ypr_ := ypr } }
    else
      { s with imu := { s.imu with mpu_ := fetch.2.2, fifo_buffer_ := fetch.2.1 } }

/-- Method `IMUReader::GetXAcceleration`. -/
def GetXAcceleration (drv : MPU6050 M) (r : IMUReader M) : ℚ :=
  let acc_x : ℚ := drv.getAccelerationX r.mpu_
  if !r.axes_invert_ 0 then acc_x else -acc_x

/-- Method `IMUReader::GetYAcceleration`. -/
def GetYAcceleration (drv : MPU6050 M) (r : IMUReader M) : ℚ :=
  let acc_y : ℚ := drv.getAccelerationY r.mpu_
  if !r.axes_invert_ 1 then acc_y else -acc_y

/-- Method `IMUReader::GetZAcceleration`. -/
def GetZAcceleration (drv : MPU6050 M) (r : IMUReader M) : ℚ :=
  let acc_z : ℚ := drv.getAccelerationZ r.mpu_
  if !r.axes_invert_ 2 then acc_z else -acc_z

/-- Method `IMUReader::GetXAngularRate`. -/
def GetXAngularRate (drv : MPU6050 M) (r : IMUReader M) : ℚ :=
  let ang_rate_x : ℚ := (drv.getRotationX r.mpu_ : ℚ) / GYRO_SENSITIVITY_SCALE_FACTOR
  if !r.axes_invert_ 0 then ang_rate_x else -ang_rate_x

/-- Method `IMUReader::GetYAngularRate`. -/
def GetYAngularRate (drv : MPU6050 M) (r : IMUReader M) : ℚ :=
  let ang_rate_y : ℚ := (drv.getRotationY r.mpu_ : ℚ) / GYRO_SENSITIVITY_SCALE_FACTOR
  if !r.axes_invert_ 1 then ang_rate_y else -ang_rate_y

/-- Method `IMUReader::GetZAngularRate`. -/
def GetZAngularRate (drv : MPU6050 M) (r : IMUReader M) : ℚ :=
  let ang_rate_z : ℚ := (drv.getRotationZ r.mpu_ : ℚ) / GYRO_SENSITIVITY_SCALE_FACTOR
  if !r.axes_invert_ 2 then ang_rate_z else -ang_rate_z

/-- Method `IMUReader::GetRollAngularRate`. -/
def GetRollAngularRate (drv : MPU6050 M) (r : IMUReader M) : ℚ :=
  GetXAngularRate drv r

/-- Method `IMUReader::GetPitchAngularRate`. -/
def GetPitchAngularRate (drv : MPU6050 M) (r : IMUReader M) : ℚ :=
  GetYAngularRate drv r

/-- Method `IMUReader::GetYawAngularRate`. -/
def GetYawAngularRate (drv : MPU6050 M) (r : IMUReader M) : ℚ :=
  GetZAngularRate drv r

/-- Method `IMUReader::GetXAngle`; `M_PI` is the constant of `<math.h>`. -/
def GetXAngle (M_PI : ℚ) (r : IMUReader M) : ℚ :=
  let angle_x : ℚ := r.ypr_ 2 * 180 / M_PI
  if !r.axes_invert_ 0 then angle_x else -angle_x

/-- Method `IMUReader::GetYAngle`. -/
def GetYAngle (M_PI : ℚ) (r : IMUReader M) : ℚ :=
  let angle_y : ℚ := r.ypr_ 1 * 180 / M_PI
  if !r.axes_invert_ 1 then angle_y else -angle_y

/-- Method `IMUReader::GetZAngle`. -/
def GetZAngle (M_PI : ℚ) (r : IMUReader M) : ℚ :=
  let angle_z : ℚ := r.ypr_ 0 * 180 / M_PI
  if !r.axes_invert_ 2 then angle_z else -angle_z

/-- Method `IMUReader::GetRollAngle`. -/
def GetRollAngle (M_PI : ℚ) (r : IMUReader M) : ℚ :=
  GetXAngle M_PI r

/-- Method `IMUReader::GetPitchAngle`. -/
def GetPitchAngle (M_PI : ℚ) (r : IMUReader M) : ℚ :=
  GetYAngle M_PI r

/-- Method `IMUReader::GetYawAngle`. -/
def GetYawAngle (M_PI : ℚ) (r : IMUReader M) : ℚ :=
  GetZAngle M_PI r

/-- Method `IMUReader::GetTemperature`. -/
def GetTemperature (drv : MPU6050 M) (r : IMUReader M) : ℚ :=
  drv.getTemperature r.mpu_

/-- One event in the life of a reader: a method call from the main loop or a
run of the data-ready interrupt routine. -/
inductive Call where
  | begin
  | calibrate
  | update
  | interrupt
deriving DecidableEq, Repr

/-- Effect of one event on the program state. -/
def step (drv : MPU6050 M) (c : Call) (s : State M) : State M :=
  match c with
  | Call.begin => { s with imu := Begin drv s.imu }
  | Call.calibrate => { s with imu := (Calibrate drv s.imu).2 }
  | Call.update => Update drv s
  | Call.interrupt => SetDMPDataReady s

/-- Effect of a finite sequence of events, oldest first. -/
def run (drv : MPU6050 M) (cs : List Call) (s : State M) : State M :=
  cs.foldl (fun t c => step drv c t) s

/-- Range of the C type `int16_t`. -/
def isInt16 (n : Int) : Prop :=
  -32768 ≤ n ∧ n ≤ 32767

instance (n : Int) : Decidable (isInt16 n) := by
  unfold isInt16; infer_instance

end sensing.imu

namespace command

/-- Data members of `command::PWMPinListener` (PWMPinListener.hpp):
`pin_` is `uint8_t`, `value_` is `uint16_t`, `time_start_` is `uint32_t`. -/
structure PWMPinListener where
  pin_ : Nat
  value_ : Nat
  update_started_ : Bool
  time_start_ : Nat
deriving DecidableEq, Repr

/-- Kind of signal edge seen by the interrupt routine. -/
inductive Edge where
  | rising
  | falling
deriving DecidableEq, Repr

/-- Modelled from the spec: the body of `PWMPinListener::ReadChannel`, of which
only the declaration is in PWMPinListener.hpp.  Section 4.1: it returns the
last committed width without blocking. -/
def ReadChannel (l : PWMPinListener) : Nat :=
  l.value_

/-- Modelled from the spec: the body of `PWMPinListener::HandleInterrupt`, of
which only the declaration is in PWMPinListener.hpp.  Section 4.1: on a rising
edge record the current time and mark pending; on a falling edge, if pending,
compute `now - start` by unsigned wraparound-safe subtraction, commit it as
the readable value and clear pending; a rising edge while pending restarts
the capture.  `now` is the reading of the 32-bit time counter; the committed
value is stored in the `uint16_t` member `value_` of the header. -/
def HandleInterrupt (e : Edge) (now : Nat) (l : PWMPinListener) : PWMPinListener :=
  match e with
  | Edge.rising =>
    { l with time_start_ := now % 2 ^ 32, update_started_ := true }
  | Edge.falling =>
    if l.update_started_ then
      { l with
        value_ := ((now % 2 ^ 32 + 2 ^ 32 - l.time_start_) % 2 ^ 32) % 2 ^ 16
        update_started_ := false }
    else
      l

/-- A listener on pin 2 holding a committed width of 1500. -/
def sampleListener : PWMPinListener :=
  { pin_ := 2, value_ := 1500, update_started_ := false, time_start_ := 0 }

end command

namespace sensing.imu

variable {M : Type}

/-- The program state with the inversion flags of the reader replaced. -/
def setInvert (f : Fin 3 → Bool) (s : State M) : State M :=
  { s with imu := { s.imu with axes_invert_ := f } }

/-- No `Begin` in the sequence has its DMP initialisation fail while the
reader is calibrated. -/
def noFailedBeginWhileCalibrated (drv : MPU6050 M) : List Call → State M → Bool
  | [], _ => true
  | c :: cs, s =>
    (match c with
      | Call.begin =>
        !s.imu.is_calibrated_ ||
          decide ((drv.dmpInitialize (drv.mpuInitialize s.imu.mpu_)).1 = 0)
      | _ => true) &&
    noFailedBeginWhileCalibrated drv cs (step drv c s)

/-- A device for concrete runs.  Its state counts the DMP initialisations; the
first `good` of them succeed and the later ones return status 1.  A packet
fetch succeeds when the offered buffer is empty. -/
def sampleDriver (good : Nat) : MPU6050 Nat where
  mpuInitialize := fun m => m
  dmpInitialize := fun m => (if m < good then 0 else 1, m + 1)
  setDMPEnabled := fun _ m => m
  getIntStatus := fun m => (0, m)
  dmpGetFIFOPacketSize := fun _ => 42
  CalibrateAccel := fun _ m => m
  CalibrateGyro := fun _ m => m
  dmpGetCurrentFIFOPacket := fun m buf => (if buf = [] then 1 else 0, 7 :: buf, m)
  dmpGetQuaternion := fun _ _ => ⟨1, 0, 0, 0⟩
  dmpGetGravity := fun _ _ => ⟨0, 0, 1⟩
  dmpGetYawPitchRoll := fun _ _ _ => fun _ => 1 / 2
  getAccelerationX := fun _ => 100
  getAccelerationY := fun _ => -200
  getAccelerationZ := fun _ => 16384
  getRotationX := fun _ => 164
  getRotationY := fun _ => -32768
  getRotationZ := fun _ => 32767
  getTemperature := fun _ => 25

/-- Storage contents for concrete runs. -/
def sampleMem : IMUReader Nat where
  mpu_ := 0
  kInterruptPin_ := 0
  dmp_ready_ := true
  is_calibrated_ := true
  device_status_ := 0
  mpu_interrupt_status_ := 0
  packet_size_ := 0
  fifo_count_ := 0
  fifo_buffer_ := []
  quaternion_ := ⟨0, 0, 0, 0⟩
  gravity_ := ⟨0, 0, 0⟩
  ypr_ := fun _ => 0
  axes_invert_ := fun _ => true

/-- Program state right after `IMUReader(2)` at program start. -/
def sampleStart : State Nat :=
  { dmp_data_ready := false, imu := IMUReader.new1 sampleMem 0 2 }

/-- A reader whose DMP is ready, with a data-ready signal pending. -/
def samplePending : State Nat :=
  { dmp_data_ready := true, imu := { sampleMem with is_calibrated_ := false } }

/-! ## Calibrate -/

/-- C1: `Calibrate` returns false exactly when the DMP-ready flag is false; in
that case the whole reader is left as it was, and otherwise it returns true
and `IsCalibrated` is true afterwards. -/
theorem Calibrate_fails_iff_dmp_not_ready (drv : MPU6050 M) (r : IMUReader M) :
    ((Calibrate drv r).1 = false ↔ r.dmp_ready_ = false) ∧
    (r.dmp_ready_ = false → Calibrate drv r = (false, r)) ∧
    (r.dmp_ready_ = true →
      (Calibrate drv r).1 = true ∧ IsCalibrated (Calibrate drv r).2 = true) := by
  unfold Calibrate IsCalibrated
  cases h : r.dmp_ready_ <;> simp

/-! ## Update -/

/-- C2: when the DMP-ready flag or the data-ready flag is false, `Update`
returns the state it was given, so the stored sample, quaternion, gravity
vector and data-ready flag are the same and the yaw, pitch and roll angles
read as before. -/
theorem Update_holds_last_sample (drv : MPU6050 M) (M_PI : ℚ) (s : State M)
    (h : s.imu.dmp_ready_ = false ∨ s.dmp_data_ready = false) :
    Update drv s = s ∧
    (Update drv s).imu.ypr_ = s.imu.ypr_ ∧
    (Update drv s).imu.quaternion_ = s.imu.quaternion_ ∧
    (Update drv s).imu.gravity_ = s.imu.gravity_ ∧
    (Update drv s).dmp_data_ready = s.dmp_data_ready ∧
    GetYawAngle M_PI (Update drv s).imu = GetYawAngle M_PI s.imu ∧
    GetPitchAngle M_PI (Update drv s).imu = GetPitchAngle M_PI s.imu ∧
    GetRollAngle M_PI (Update drv s).imu = GetRollAngle M_PI s.imu := by
  have key : Update drv s = s := by
    unfold Update
    rcases h with h | h
    · simp [h]
    · cases hd : s.imu.dmp_ready_ <;> simp [h]
  simp [key]

/-- Witness of C2: a reader whose DMP never came up, with a signal pending. -/
theorem Update_holds_last_sample_witness :
    ((SetDMPDataReady sampleStart).imu.dmp_ready_ = false ∨
      (SetDMPDataReady sampleStart).dmp_data_ready = false) ∧
    Update (sampleDriver 1) (SetDMPDataReady sampleStart) = SetDMPDataReady sampleStart :=
  ⟨Or.inl rfl,
    (Update_holds_last_sample (sampleDriver 1) (22 / 7) (SetDMPDataReady sampleStart)
      (Or.inl rfl)).1⟩

/-- C9: with both flags set, `Update` clears the data-ready flag exactly when
the packet fetch reports success; then the stored sample is the one computed
from the fetched packet, and after a failed fetch the stored sample is
unchanged and the flag is still set. -/
theorem Update_consumes_signal_iff_fetch_succeeds (drv : MPU6050 M) (s : State M)
    (hd : s.imu.dmp_ready_ = true) (hr : s.dmp_data_ready = true) :
    ((Update drv s).dmp_data_ready = false ↔
      (drv.dmpGetCurrentFIFOPacket s.imu.mpu_ s.imu.fifo_buffer_).1 ≠ 0) ∧
    ((drv.dmpGetCurrentFIFOPacket s.imu.mpu_ s.imu.fifo_buffer_).1 ≠ 0 →
      (Update drv s).dmp_data_ready = false ∧
      (Update drv s).imu.ypr_ =
        drv.dmpGetYawPitchRoll s.imu.ypr_
          (drv.dmpGetQuaternion s.imu.quaternion_
            (drv.dmpGetCurrentFIFOPacket s.imu.mpu_ s.imu.fifo_buffer_).2.1)
          (drv.dmpGetGravity s.imu.gravity_
            (drv.dmpGetQuaternion s.imu.quaternion_
              (drv.dmpGetCurrentFIFOPacket s.imu.mpu_ s.imu.fifo_buffer_).2.1))) ∧
    ((drv.dmpGetCurrentFIFOPacket s.imu.mpu_ s.imu.fifo_buffer_).1 = 0 →
      (Update drv s).dmp_data_ready = true ∧
      (Update drv s).imu.ypr_ = s.imu.ypr_) := by
  unfold Update
  by_cases hf : (drv.dmpGetCurrentFIFOPacket s.imu.mpu_ s.imu.fifo_buffer_).1 = 0
  · simp [hd, hr, hf]
  · simp [hd, hr, hf]

/-- Witness of C9: the pending signal of `samplePending` is consumed by a
successful fetch and the sample becomes the one the device computed. -/
theorem Update_consumes_signal_iff_fetch_succeeds_witness :
    samplePending.imu.dmp_ready_ = true ∧ samplePending.dmp_data_ready = true ∧
    (Update (sampleDriver 1) samplePending).dmp_data_ready = false ∧
    (Update (sampleDriver 1) samplePending).imu.ypr_ 0 = 1 / 2 ∧
    (Update (sampleDriver 1) (Update (sampleDriver 1) (SetDMPDataReady
      (Update (sampleDriver 1) samplePending)))).dmp_data_ready = true :=
  ⟨rfl, rfl,
    ((Update_consumes_signal_iff_fetch_succeeds (sampleDriver 1) samplePending rfl rfl).2.1
      (by decide)).1,
    congrFun ((Update_consumes_signal_iff_fetch_succeeds (sampleDriver 1) samplePending
      rfl rfl).2.1 (by decide)).2 0,
    by decide⟩

/-! ## The interrupt routine -/

/-- C6: `SetDMPDataReady` sets the data-ready flag, leaves every member of the
reader as it was, and a second run changes nothing more. -/
theorem SetDMPDataReady_only_sets_flag (s : State M) :
    (SetDMPDataReady s).dmp_data_ready = true ∧
    (SetDMPDataReady s).imu = s.imu ∧
    (SetDMPDataReady s).imu.dmp_ready_ = s.imu.dmp_ready_ ∧
    (SetDMPDataReady s).imu.is_calibrated_ = s.imu.is_calibrated_ ∧
    (SetDMPDataReady s).imu.ypr_ = s.imu.ypr_ ∧
    (SetDMPDataReady s).imu.axes_invert_ = s.imu.axes_invert_ ∧
    SetDMPDataReady (SetDMPDataReady s) = SetDMPDataReady s :=
  ⟨rfl, rfl, rfl, rfl, rfl, rfl, rfl⟩

/-! ## Angles -/

/-- C5: the yaw, pitch and roll angles are `ypr_[0]`, `ypr_[1]` and `ypr_[2]`
times 180 over pi, negated exactly when the Z, Y or X inversion flag is set,
and they are the Z, Y and X angles. -/
theorem angles_are_degrees_of_ypr (M_PI : ℚ) (r : IMUReader M) :
    GetYawAngle M_PI r =
      (if r.axes_invert_ 2 = true then -(r.ypr_ 0 * 180 / M_PI) else r.ypr_ 0 * 180 / M_PI) ∧
    GetPitchAngle M_PI r =
      (if r.axes_invert_ 1 = true then -(r.ypr_ 1 * 180 / M_PI) else r.ypr_ 1 * 180 / M_PI) ∧
    GetRollAngle M_PI r =
      (if r.axes_invert_ 0 = true then -(r.ypr_ 2 * 180 / M_PI) else r.ypr_ 2 * 180 / M_PI) ∧
    GetRollAngle M_PI r = GetXAngle M_PI r ∧
    GetPitchAngle M_PI r = GetYAngle M_PI r ∧
    GetYawAngle M_PI r = GetZAngle M_PI r := by
  unfold GetYawAngle GetPitchAngle GetRollAngle GetXAngle GetYAngle GetZAngle
  refine ⟨?_, ?_, ?_, rfl, rfl, rfl⟩
  · cases h : r.axes_invert_ 2 <;> simp
  · cases h : r.axes_invert_ 1 <;> simp
  · cases h : r.axes_invert_ 0 <;> simp

/-! ## Angular rates -/

/-- The scaled reading of a 16-bit gyro value stays within 2000. -/
theorem scaled_int16_le (g : Int) (h : isInt16 g) :
    |(g : ℚ) / GYRO_SENSITIVITY_SCALE_FACTOR| ≤ 2000 := by
  obtain ⟨lo, hi⟩ := h
  have lo1 : (-32768 : ℚ) ≤ (g : ℚ) := by exact_mod_cast lo
  have hi1 : (g : ℚ) ≤ 32767 := by exact_mod_cast hi
  have e : (g : ℚ) / GYRO_SENSITIVITY_SCALE_FACTOR = (g : ℚ) * (10 / 164) := by
    unfold GYRO_SENSITIVITY_SCALE_FACTOR
    ring
  rw [e, abs_le]
  constructor <;> linarith

/-- C8: for 16-bit raw gyro readings the X, Y and Z angular rates are the
reading divided by 16.4, negated when the axis is inverted; roll, pitch and
yaw rates are the X, Y and Z rates; every rate has magnitude at most 2000. -/
theorem angular_rates_scaled_and_bounded (drv : MPU6050 M) (r : IMUReader M)
    (hx : isInt16 (drv.getRotationX r.mpu_))
    (hy : isInt16 (drv.getRotationY r.mpu_))
    (hz : isInt16 (drv.getRotationZ r.mpu_)) :
    GetXAngularRate drv r =
      (if r.axes_invert_ 0 = true then -((drv.getRotationX r.mpu_ : ℚ) / (164 / 10))
        else (drv.getRotationX r.mpu_ : ℚ) / (164 / 10)) ∧
    GetYAngularRate drv r =
      (if r.axes_invert_ 1 = true then -((drv.getRotationY r.mpu_ : ℚ) / (164 / 10))
        else (drv.getRotationY r.mpu_ : ℚ) / (164 / 10)) ∧
    GetZAngularRate drv r =
      (if r.axes_invert_ 2 = true then -((drv.getRotationZ r.mpu_ : ℚ) / (164 / 10))
        else (drv.getRotationZ r.mpu_ : ℚ) / (164 / 10)) ∧
    GetRollAngularRate drv r = GetXAngularRate drv r ∧
    GetPitchAngularRate drv r = GetYAngularRate drv r ∧
    GetYawAngularRate drv r = GetZAngularRate drv r ∧
    |GetXAngularRate drv r| ≤ 2000 ∧
    |GetYAngularRate drv r| ≤ 2000 ∧
    |GetZAngularRate drv r| ≤ 2000 := by
  have bx := scaled_int16_le _ hx
  have byy := scaled_int16_le _ hy
  have bz := scaled_int16_le _ hz
  unfold GetRollAngularRate GetPitchAngularRate GetYawAngularRate
  unfold GetXAngularRate GetYAngularRate GetZAngularRate
  refine ⟨?_, ?_, ?_, rfl, rfl, rfl, ?_, ?_, ?_⟩
  · cases h : r.axes_invert_ 0 <;> simp [GYRO_SENSITIVITY_SCALE_FACTOR]
  · cases h : r.axes_invert_ 1 <;> simp [GYRO_SENSITIVITY_SCALE_FACTOR]
  · cases h : r.axes_invert_ 2 <;> simp [GYRO_SENSITIVITY_SCALE_FACTOR]
  · cases h : r.axes_invert_ 0 <;> simpa using bx
  · cases h : r.axes_invert_ 1 <;> simpa using byy
  · cases h : r.axes_invert_ 2 <;> simpa using bz

/-- Witness of C8: the sample device reads 164, -32768 and 32767 on an
all-inverted reader. -/
theorem angular_rates_scaled_and_bounded_witness :
    isInt16 ((sampleDriver 1).getRotationX sampleMem.mpu_) ∧
    isInt16 ((sampleDriver 1).getRotationY sampleMem.mpu_) ∧
    isInt16 ((sampleDriver 1).getRotationZ sampleMem.mpu_) ∧
    |GetXAngularRate (sampleDriver 1) sampleMem| ≤ 2000 ∧
    |GetYAngularRate (sampleDriver 1) sampleMem| ≤ 2000 ∧
    |GetZAngularRate (sampleDriver 1) sampleMem| ≤ 2000 :=
  ⟨by decide, by decide, by decide,
    (angular_rates_scaled_and_bounded (sampleDriver 1) sampleMem
      (by decide) (by decide) (by decide)).2.2.2.2.2.2⟩

/-! ## Runs of events -/

/-- A run of a sequence with a first event is the run of the rest after that event. -/
theorem run_cons (drv : MPU6050 M) (c : Call) (cs : List Call) (s : State M) :
    run drv (c :: cs) s = run drv cs (step drv c s) :=
  rfl

/-- No event reads or writes the inversion flags. -/
theorem step_setInvert (drv : MPU6050 M) (f : Fin 3 → Bool) (c : Call) (s : State M) :
    step drv c (setInvert f s) = setInvert f (step drv c s) := by
  cases c
  · simp only [step, setInvert, Begin]
    split_ifs <;> rfl
  · simp only [step, setInvert, Calibrate]
    split_ifs <;> rfl
  · simp only [step, setInvert, Update]
    split_ifs <;> rfl
  · rfl

/-- Replacing the inversion flags commutes with every run. -/
theorem run_setInvert (drv : MPU6050 M) (f : Fin 3 → Bool) (cs : List Call) (s : State M) :
    run drv cs (setInvert f s) = setInvert f (run drv cs s) := by
  induction cs generalizing s with
  | nil => rfl
  | cons c cs ih => rw [run_cons, run_cons, step_setInvert, ih]

/-- An event keeps a reader that is neither ready nor calibrated in that
condition when every DMP initialisation fails. -/
theorem step_keeps_unready (drv : MPU6050 M) (hfail : ∀ m, (drv.dmpInitialize m).1 ≠ 0)
    (c : Call) (s : State M)
    (h : s.imu.dmp_ready_ = false ∧ s.imu.is_calibrated_ = false) :
    (step drv c s).imu.dmp_ready_ = false ∧ (step drv c s).imu.is_calibrated_ = false := by
  obtain ⟨h1, h2⟩ := h
  cases c
  · simp [step, Begin, hfail, h2]
  · simp [step, Calibrate, h1, h2]
  · simp [step, Update, h1, h2]
  · simp [step, SetDMPDataReady, h1, h2]

/-- A run keeps a reader that is neither ready nor calibrated in that
condition when every DMP initialisation fails. -/
theorem run_keeps_unready (drv : MPU6050 M) (hfail : ∀ m, (drv.dmpInitialize m).1 ≠ 0)
    (cs : List Call) (s : State M)
    (h : s.imu.dmp_ready_ = false ∧ s.imu.is_calibrated_ = false) :
    (run drv cs s).imu.dmp_ready_ = false ∧ (run drv cs s).imu.is_calibrated_ = false := by
  induction cs generalizing s with
  | nil => exact h
  | cons c cs ih =>
    rw [run_cons]
    exact ih _ (step_keeps_unready drv hfail c s h)

/-- C4: when every DMP initialisation returns a non-zero status, after any
finite sequence of `Begin`, `Calibrate`, `Update` and data-ready interrupts on
a reader built by either constructor `IsCalibrated` is false and `Calibrate`
returns false. -/
theorem never_ready_never_calibrated (drv : MPU6050 M)
    (hfail : ∀ m, (drv.dmpInitialize m).1 ≠ 0)
    (mem : IMUReader M) (mpu : M) (pin : Nat) (x y z flag : Bool) (cs : List Call) :
    (IsCalibrated (run drv cs ⟨flag, IMUReader.new1 mem mpu pin⟩).imu = false ∧
      (Calibrate drv (run drv cs ⟨flag, IMUReader.new1 mem mpu pin⟩).imu).1 = false) ∧
    (IsCalibrated (run drv cs ⟨flag, IMUReader.new4 mem mpu pin x y z⟩).imu = false ∧
      (Calibrate drv (run drv cs ⟨flag, IMUReader.new4 mem mpu pin x y z⟩).imu).1 = false) := by
  have h1 := run_keeps_unready drv hfail cs ⟨flag, IMUReader.new1 mem mpu pin⟩ ⟨rfl, rfl⟩
  have h4 := run_keeps_unready drv hfail cs ⟨flag, IMUReader.new4 mem mpu pin x y z⟩ ⟨rfl, rfl⟩
  refine ⟨⟨h1.2, ?_⟩, ⟨h4.2, ?_⟩⟩
  · simp [Calibrate, h1.1]
  · simp [Calibrate, h4.1]

/-- Witness of C4: a device that never initialises, driven through two rounds
of start-up calls with an interrupt in between. -/
theorem never_ready_never_calibrated_witness :
    (∀ m, ((sampleDriver 0).dmpInitialize m).1 ≠ 0) ∧
    IsCalibrated (run (sampleDriver 0)
      [Call.begin, Call.calibrate, Call.interrupt, Call.update, Call.begin, Call.calibrate]
      ⟨false, IMUReader.new1 sampleMem 0 2⟩).imu = false :=
  ⟨fun m => by simp [sampleDriver],
    (never_ready_never_calibrated (sampleDriver 0) (fun m => by simp [sampleDriver])
      sampleMem 0 2 false false false false
      [Call.begin, Call.calibrate, Call.interrupt, Call.update, Call.begin,
        Call.calibrate]).1.1⟩

/-- An event keeps "calibrated implies DMP ready" unless it is a `Begin` whose
DMP initialisation fails on a calibrated reader. -/
theorem step_keeps_calibrated_ready (drv : MPU6050 M) (c : Call) (s : State M)
    (hc : c = Call.begin → s.imu.is_calibrated_ = true →
      (drv.dmpInitialize (drv.mpuInitialize s.imu.mpu_)).1 = 0)
    (h : s.imu.is_calibrated_ = true → s.imu.dmp_ready_ = true) :
    (step drv c s).imu.is_calibrated_ = true → (step drv c s).imu.dmp_ready_ = true := by
  cases c
  · simp only [step, Begin]
    split_ifs with h0
    · intro _; rfl
    · intro hcal
      exact absurd (hc rfl hcal) h0
  · simp only [step, Calibrate]
    cases hd : s.imu.dmp_ready_
    · simpa [hd] using h
    · simp
  · simp only [step, Update]
    split_ifs <;> exact h
  · exact h

/-- C10 (amended): in every state reached from either constructor by a finite
sequence of `Begin`, `Calibrate`, `Update` and interrupts in which no `Begin`
has its DMP initialisation fail while the reader is calibrated, `IsCalibrated`
being true implies that the DMP-ready flag is set. -/
theorem calibrated_implies_dmp_ready (drv : MPU6050 M)
    (mem : IMUReader M) (mpu : M) (pin : Nat) (x y z flag : Bool) (cs : List Call) :
    (noFailedBeginWhileCalibrated drv cs ⟨flag, IMUReader.new1 mem mpu pin⟩ = true →
      IsCalibrated (run drv cs ⟨flag, IMUReader.new1 mem mpu pin⟩).imu = true →
      (run drv cs ⟨flag, IMUReader.new1 mem mpu pin⟩).imu.dmp_ready_ = true) ∧
    (noFailedBeginWhileCalibrated drv cs ⟨flag, IMUReader.new4 mem mpu pin x y z⟩ = true →
      IsCalibrated (run drv cs ⟨flag, IMUReader.new4 mem mpu pin x y z⟩).imu = true →
      (run drv cs ⟨flag, IMUReader.new4 mem mpu pin x y z⟩).imu.dmp_ready_ = true) := by
  have key : ∀ (cs : List Call) (s : State M),
      (s.imu.is_calibrated_ = true → s.imu.dmp_ready_ = true) →
      noFailedBeginWhileCalibrated drv cs s = true →
      (run drv cs s).imu.is_calibrated_ = true → (run drv cs s).imu.dmp_ready_ = true := by
    intro cs
    induction cs with
    | nil => intro s h _; exact h
    | cons c cs ih =>
      intro s h hok
      rw [run_cons]
      simp only [noFailedBeginWhileCalibrated, Bool.and_eq_true] at hok
      refine ih _ (step_keeps_calibrated_ready drv c s ?_ h) hok.2
      intro hcb hcal
      subst hcb
      simpa [hcal] using hok.1
  exact ⟨key cs _ (fun h => absurd h (by simp [IMUReader.new1])),
    key cs _ (fun h => absurd h (by simp [IMUReader.new4]))⟩

/-- Witness of C10 (amended): the DMP comes up, the reader is calibrated and
`Begin` succeeds once more. -/
theorem calibrated_implies_dmp_ready_witness :
    noFailedBeginWhileCalibrated (sampleDriver 2) [Call.begin, Call.calibrate, Call.begin]
      sampleStart = true ∧
    IsCalibrated (run (sampleDriver 2) [Call.begin, Call.calibrate, Call.begin]
      sampleStart).imu = true ∧
    (run (sampleDriver 2) [Call.begin, Call.calibrate, Call.begin]
      sampleStart).imu.dmp_ready_ = true :=
  ⟨by decide, by decide,
    (calibrated_implies_dmp_ready (sampleDriver 2) sampleMem 0 2 false false false false
      [Call.begin, Call.calibrate, Call.begin]).1 (by decide) (by decide)⟩

/-- C10 as stated fails: `Begin` succeeds, `Calibrate` succeeds, and a second
`Begin` whose DMP initialisation fails clears the DMP-ready flag while
`IsCalibrated` stays true. -/
theorem calibrated_without_dmp_ready :
    IsCalibrated (run (sampleDriver 1) [Call.begin, Call.calibrate, Call.begin]
      ⟨false, IMUReader.new1 sampleMem 0 2⟩).imu = true ∧
    (run (sampleDriver 1) [Call.begin, Call.calibrate, Call.begin]
      ⟨false, IMUReader.new1 sampleMem 0 2⟩).imu.dmp_ready_ = false := by
  decide

/-! ## Inversion flags -/

/-- A run from a reader built with given inversion flags is the run from the
reader built with all flags clear, with the flags put in afterwards. -/
theorem run_new4 (drv : MPU6050 M) (mem : IMUReader M) (mpu : M) (pin : Nat)
    (flag : Bool) (cs : List Call) (x y z : Bool) :
    run drv cs ⟨flag, IMUReader.new4 mem mpu pin x y z⟩ =
      setInvert
        (Function.update (Function.update (Function.update mem.axes_invert_ 0 x) 1 y) 2 z)
        (run drv cs ⟨flag, IMUReader.new4 mem mpu pin false false false⟩) := by
  rw [← run_setInvert]
  rfl

/-- C3: on readers built by the four-argument constructor over the same
storage and device and taken through the same events, each X, Y or Z
acceleration, angular rate and angle with the flag of its axis set is the
negation of the one with that flag clear, whatever the other two flags are. -/
theorem inversion_flag_negates_own_axis (drv : MPU6050 M) (M_PI : ℚ)
    (mem : IMUReader M) (mpu : M) (pin : Nat) (flag : Bool) (cs : List Call)
    (p q u v : Bool) :
    (GetXAcceleration drv (run drv cs ⟨flag, IMUReader.new4 mem mpu pin true p q⟩).imu =
        -GetXAcceleration drv (run drv cs ⟨flag, IMUReader.new4 mem mpu pin false u v⟩).imu ∧
      GetXAngularRate drv (run drv cs ⟨flag, IMUReader.new4 mem mpu pin true p q⟩).imu =
        -GetXAngularRate drv (run drv cs ⟨flag, IMUReader.new4 mem mpu pin false u v⟩).imu ∧
      GetXAngle M_PI (run drv cs ⟨flag, IMUReader.new4 mem mpu pin true p q⟩).imu =
        -GetXAngle M_PI (run drv cs ⟨flag, IMUReader.new4 mem mpu pin false u v⟩).imu) ∧
    (GetYAcceleration drv (run drv cs ⟨flag, IMUReader.new4 mem mpu pin p true q⟩).imu =
        -GetYAcceleration drv (run drv cs ⟨flag, IMUReader.new4 mem mpu pin u false v⟩).imu ∧
      GetYAngularRate drv (run drv cs ⟨flag, IMUReader.new4 mem mpu pin p true q⟩).imu =
        -GetYAngularRate drv (run drv cs ⟨flag, IMUReader.new4 mem mpu pin u false v⟩).imu ∧
      GetYAngle M_PI (run drv cs ⟨flag, IMUReader.new4 mem mpu pin p true q⟩).imu =
        -GetYAngle M_PI (run drv cs ⟨flag, IMUReader.new4 mem mpu pin u false v⟩).imu) ∧
    (GetZAcceleration drv (run drv cs ⟨flag, IMUReader.new4 mem mpu pin p q true⟩).imu =
        -GetZAcceleration drv (run drv cs ⟨flag, IMUReader.new4 mem mpu pin u v false⟩).imu ∧
      GetZAngularRate drv (run drv cs ⟨flag, IMUReader.new4 mem mpu pin p q true⟩).imu =
        -GetZAngularRate drv (run drv cs ⟨flag, IMUReader.new4 mem mpu pin u v false⟩).imu ∧
      GetZAngle M_PI (run drv cs ⟨flag, IMUReader.new4 mem mpu pin p q true⟩).imu =
        -GetZAngle M_PI (run drv cs ⟨flag, IMUReader.new4 mem mpu pin u v false⟩).imu) := by
  rw [run_new4 drv mem mpu pin flag cs true p q, run_new4 drv mem mpu pin flag cs false u v,
    run_new4 drv mem mpu pin flag cs p true q, run_new4 drv mem mpu pin flag cs u false v,
    run_new4 drv mem mpu pin flag cs p q true, run_new4 drv mem mpu pin flag cs u v false]
  refine ⟨⟨?_, ?_, ?_⟩, ⟨?_, ?_, ?_⟩, ⟨?_, ?_, ?_⟩⟩ <;>
    simp [GetXAcceleration, GetYAcceleration, GetZAcceleration, GetXAngularRate,
      GetYAngularRate, GetZAngularRate, GetXAngle, GetYAngle, GetZAngle, setInvert,
      Function.update]

end sensing.imu

namespace command

/-! ## PWM pin listener -/

/-- Unsigned 32-bit subtraction of two counter readings gives the elapsed
time modulo `2 ^ 32`. -/
theorem counter_difference (r f : Nat) (h : r < f) :
    (f % 2 ^ 32 + 2 ^ 32 - r % 2 ^ 32) % 2 ^ 32 = (f - r) % 2 ^ 32 := by
  norm_num
  omega

/-- C7 (amended): after a rising edge at time `r` the listener still reads the
width committed before; after the falling edge at a later time `f` it reads
`f - r` modulo `2 ^ 32`, reduced to the 16 bits of `value_`, which is
`f - r` modulo `2 ^ 32` whenever that is below `2 ^ 16`. -/
theorem ReadChannel_after_pulse (l : PWMPinListener) (r f : Nat) (h : r < f) :
    ReadChannel (HandleInterrupt Edge.rising r l) = ReadChannel l ∧
    ReadChannel (HandleInterrupt Edge.falling f (HandleInterrupt Edge.rising r l)) =
      ((f - r) % 2 ^ 32) % 2 ^ 16 ∧
    ((f - r) % 2 ^ 32 < 2 ^ 16 →
      ReadChannel (HandleInterrupt Edge.falling f (HandleInterrupt Edge.rising r l)) =
        (f - r) % 2 ^ 32) := by
  have e : ReadChannel (HandleInterrupt Edge.falling f (HandleInterrupt Edge.rising r l)) =
      ((f - r) % 2 ^ 32) % 2 ^ 16 := by
    simp only [ReadChannel, HandleInterrupt, if_true]
    rw [counter_difference r f h]
  refine ⟨rfl, e, fun hlt => ?_⟩
  rw [e, Nat.mod_eq_of_lt hlt]

/-- Witness of C7 (amended): a pulse from 4294967000 to 4294968500 on the
real time line, across the wrap of the 32-bit counter, reads as 1500. -/
theorem ReadChannel_after_pulse_witness :
    4294967000 < 4294968500 ∧
    ReadChannel (HandleInterrupt Edge.falling 4294968500
      (HandleInterrupt Edge.rising 4294967000 sampleListener)) = 1500 :=
  ⟨by decide,
    (ReadChannel_after_pulse sampleListener 4294967000 4294968500 (by decide)).2.1⟩

/-- C7 as stated fails: a pulse of width 70000 is read back as 4464, because
the committed value has 16 bits. -/
theorem ReadChannel_truncates_wide_pulse :
    0 < 70000 ∧
    ReadChannel (HandleInterrupt Edge.falling 70000
      (HandleInterrupt Edge.rising 0 sampleListener)) ≠ (70000 - 0) % 2 ^ 32 := by
  decide

end command
